import Mathlib

/-!
# universities.js: catalogue of universities

A shallow embedding of `src/universities.js`: the text utilities (`escapeHtml`,
`getRussianPlural`), the filter (`applyFilters`), the renderer (`render`), the option list
(`populateSpecs`) and the loading chain (`loadData`, `getDemoData`).

Modelling conventions.

* A script string is a Lean `String`, read as its list of characters (`String.data`).  The
  script's strings are sequences of UTF-16 code units; for well-formed text the substring
  relation on code units and on characters coincide, and the default sort order is modelled
  on the code units themselves (`codeUnits`).
* The builtin `toLowerCase` follows the Unicode Character Database: the tables
  `lowerCaseTable`, `casedTable` and `caseIgnorableTable` carry its simple lower-case
  mappings and the two properties that decide the final sigma.
* A numeric field (`score_min`, `score_max`) is an integer the engine holds exactly.
* A record is the structure `University` with the fields the script reads (`name`, `city`,
  `url`, `specialization`, `score_min`, `score_max`) and the field `location` that only the
  demo data carries.  An absent field is `none`.
* The page is the structure `Page`: the three optional mount points with their content, the
  values of the two controls, the options appended to the dropdown, and the two script
  variables `universities` and `specializations`.
* A function that can throw returns a `Run`: the page it left behind and the thrown value.
-/

namespace Universities

/-! ## Strings of the host language -/

/-- White space and line terminators, the characters `String.prototype.trim` strips. -/
def isWhiteSpace (c : Char) : Bool :=
  let n := c.toNat
  n == 9 || n == 10 || n == 11 || n == 12 || n == 13 || n == 32 || n == 160 || n == 5760 ||
    (8192 ≤ n && n ≤ 8202) || n == 8232 || n == 8233 || n == 8239 || n == 8287 ||
    n == 12288 || n == 65279

/-- The builtin `String.prototype.trim`: strips white space at both ends. -/
def trim (s : String) : String :=
  String.mk ((s.data.dropWhile isWhiteSpace).reverse.dropWhile isWhiteSpace).reverse

/-- Simple lower-case mappings of the Unicode Character Database (version 14.0, with the
case pairs added by version 16.0).  An entry `(first, last, stride, target)` maps the code
points `first`, `first + stride`, ..., `last` to `target`, `target + stride`, ... -/
def lowerCaseTable : List (Nat × Nat × Nat × Nat) :=
  [(65, 90, 1, 97), (192, 214, 1, 224), (216, 222, 1, 248), (256, 302, 2, 257),
   (306, 310, 2, 307), (313, 327, 2, 314), (330, 374, 2, 331), (376, 376, 1, 255),
   (377, 381, 2, 378), (385, 385, 1, 595), (386, 388, 2, 387), (390, 390, 1, 596),
   (391, 391, 1, 392), (393, 394, 1, 598), (395, 395, 1, 396), (398, 398, 1, 477),
   (399, 399, 1, 601), (400, 400, 1, 603), (401, 401, 1, 402), (403, 403, 1, 608),
   (404, 404, 1, 611), (406, 406, 1, 617), (407, 407, 1, 616), (408, 408, 1, 409),
   (412, 412, 1, 623), (413, 413, 1, 626), (415, 415, 1, 629), (416, 420, 2, 417),
   (422, 422, 1, 640), (423, 423, 1, 424), (425, 425, 1, 643), (428, 428, 1, 429),
   (430, 430, 1, 648), (431, 431, 1, 432), (433, 434, 1, 650), (435, 437, 2, 436),
   (439, 439, 1, 658), (440, 440, 1, 441), (444, 444, 1, 445), (452, 452, 1, 454),
   (453, 453, 1, 454), (455, 455, 1, 457), (456, 456, 1, 457), (458, 458, 1, 460),
   (459, 475, 2, 460), (478, 494, 2, 479), (497, 497, 1, 499), (498, 500, 2, 499),
   (502, 502, 1, 405), (503, 503, 1, 447), (504, 542, 2, 505), (544, 544, 1, 414),
   (546, 562, 2, 547), (570, 570, 1, 11365), (571, 571, 1, 572), (573, 573, 1, 410),
   (574, 574, 1, 11366), (577, 577, 1, 578), (579, 579, 1, 384), (580, 580, 1, 649),
   (581, 581, 1, 652), (582, 590, 2, 583), (880, 882, 2, 881), (886, 886, 1, 887),
   (895, 895, 1, 1011), (902, 902, 1, 940), (904, 906, 1, 941), (908, 908, 1, 972),
   (910, 911, 1, 973), (913, 929, 1, 945), (931, 939, 1, 963), (975, 975, 1, 983),
   (984, 1006, 2, 985), (1012, 1012, 1, 952), (1015, 1015, 1, 1016), (1017, 1017, 1, 1010),
   (1018, 1018, 1, 1019), (1021, 1023, 1, 891), (1024, 1039, 1, 1104), (1040, 1071, 1, 1072),
   (1120, 1152, 2, 1121), (1162, 1214, 2, 1163), (1216, 1216, 1, 1231), (1217, 1229, 2, 1218),
   (1232, 1326, 2, 1233), (1329, 1366, 1, 1377), (4256, 4293, 1, 11520), (4295, 4295, 1, 11559),
   (4301, 4301, 1, 11565), (5024, 5103, 1, 43888), (5104, 5109, 1, 5112), (7305, 7305, 1, 7306),
   (7312, 7354, 1, 4304), (7357, 7359, 1, 4349), (7680, 7828, 2, 7681), (7838, 7838, 1, 223),
   (7840, 7934, 2, 7841), (7944, 7951, 1, 7936), (7960, 7965, 1, 7952), (7976, 7983, 1, 7968),
   (7992, 7999, 1, 7984), (8008, 8013, 1, 8000), (8025, 8031, 2, 8017), (8040, 8047, 1, 8032),
   (8072, 8079, 1, 8064), (8088, 8095, 1, 8080), (8104, 8111, 1, 8096), (8120, 8121, 1, 8112),
   (8122, 8123, 1, 8048), (8124, 8124, 1, 8115), (8136, 8139, 1, 8050), (8140, 8140, 1, 8131),
   (8152, 8153, 1, 8144), (8154, 8155, 1, 8054), (8168, 8169, 1, 8160), (8170, 8171, 1, 8058),
   (8172, 8172, 1, 8165), (8184, 8185, 1, 8056), (8186, 8187, 1, 8060), (8188, 8188, 1, 8179),
   (8486, 8486, 1, 969), (8490, 8490, 1, 107), (8491, 8491, 1, 229), (8498, 8498, 1, 8526),
   (8544, 8559, 1, 8560), (8579, 8579, 1, 8580), (9398, 9423, 1, 9424), (11264, 11311, 1, 11312),
   (11360, 11360, 1, 11361), (11362, 11362, 1, 619), (11363, 11363, 1, 7549), (11364, 11364, 1, 637),
   (11367, 11371, 2, 11368), (11373, 11373, 1, 593), (11374, 11374, 1, 625), (11375, 11375, 1, 592),
   (11376, 11376, 1, 594), (11378, 11378, 1, 11379), (11381, 11381, 1, 11382), (11390, 11391, 1, 575),
   (11392, 11490, 2, 11393), (11499, 11501, 2, 11500), (11506, 11506, 1, 11507), (42560, 42604, 2, 42561),
   (42624, 42650, 2, 42625), (42786, 42798, 2, 42787), (42802, 42862, 2, 42803), (42873, 42875, 2, 42874),
   (42877, 42877, 1, 7545), (42878, 42886, 2, 42879), (42891, 42891, 1, 42892), (42893, 42893, 1, 613),
   (42896, 42898, 2, 42897), (42902, 42920, 2, 42903), (42922, 42922, 1, 614), (42923, 42923, 1, 604),
   (42924, 42924, 1, 609), (42925, 42925, 1, 620), (42926, 42926, 1, 618), (42928, 42928, 1, 670),
   (42929, 42929, 1, 647), (42930, 42930, 1, 669), (42931, 42931, 1, 43859), (42932, 42946, 2, 42933),
   (42948, 42948, 1, 42900), (42949, 42949, 1, 642), (42950, 42950, 1, 7566), (42951, 42953, 2, 42952),
   (42955, 42955, 1, 612), (42956, 42956, 1, 42957), (42960, 42960, 1, 42961), (42966, 42970, 2, 42967),
   (42972, 42972, 1, 411), (42997, 42997, 1, 42998), (65313, 65338, 1, 65345), (66560, 66599, 1, 66600),
   (66736, 66771, 1, 66776), (66928, 66938, 1, 66967), (66940, 66954, 1, 66979), (66956, 66962, 1, 66995),
   (66964, 66965, 1, 67003), (68736, 68786, 1, 68800), (68944, 68965, 1, 68976), (71840, 71871, 1, 71872),
   (93760, 93791, 1, 93792), (125184, 125217, 1, 125218)]

/-- Code point ranges with the property `Cased` (letters that are upper-case, lower-case or
title-case), from the same version of the database as `lowerCaseTable`. -/
def casedTable : List (Nat × Nat) :=
  [(65, 90), (97, 122), (170, 170), (181, 181), (186, 186), (192, 214),
   (216, 246), (248, 442), (444, 447), (452, 659), (661, 696), (704, 705),
   (736, 740), (837, 837), (880, 883), (886, 887), (890, 893), (895, 895),
   (902, 902), (904, 906), (908, 908), (910, 929), (931, 1013), (1015, 1153),
   (1162, 1327), (1329, 1366), (1376, 1416), (4256, 4293), (4295, 4295), (4301, 4301),
   (4304, 4346), (4349, 4351), (5024, 5109), (5112, 5117), (7296, 7306), (7312, 7354),
   (7357, 7359), (7424, 7615), (7680, 7957), (7960, 7965), (7968, 8005), (8008, 8013),
   (8016, 8023), (8025, 8025), (8027, 8027), (8029, 8029), (8031, 8061), (8064, 8116),
   (8118, 8124), (8126, 8126), (8130, 8132), (8134, 8140), (8144, 8147), (8150, 8155),
   (8160, 8172), (8178, 8180), (8182, 8188), (8305, 8305), (8319, 8319), (8336, 8348),
   (8450, 8450), (8455, 8455), (8458, 8467), (8469, 8469), (8473, 8477), (8484, 8484),
   (8486, 8486), (8488, 8488), (8490, 8493), (8495, 8500), (8505, 8505), (8508, 8511),
   (8517, 8521), (8526, 8526), (8544, 8575), (8579, 8580), (9398, 9449), (11264, 11492),
   (11499, 11502), (11506, 11507), (11520, 11557), (11559, 11559), (11565, 11565), (42560, 42605),
   (42624, 42653), (42786, 42887), (42891, 42894), (42896, 42957), (42960, 42961), (42963, 42963),
   (42965, 42972), (42997, 42998), (43000, 43002), (43824, 43866), (43868, 43880), (43888, 43967),
   (64256, 64262), (64275, 64279), (65313, 65338), (65345, 65370), (66560, 66639), (66736, 66771),
   (66776, 66811), (66928, 66938), (66940, 66954), (66956, 66962), (66964, 66965), (66967, 66977),
   (66979, 66993), (66995, 67001), (67003, 67004), (67456, 67456), (67459, 67461), (67463, 67504),
   (67506, 67514), (68736, 68786), (68800, 68850), (68944, 68965), (68976, 68997), (71840, 71903),
   (93760, 93823), (119808, 119892), (119894, 119964), (119966, 119967), (119970, 119970), (119973, 119974),
   (119977, 119980), (119982, 119993), (119995, 119995), (119997, 120003), (120005, 120069), (120071, 120074),
   (120077, 120084), (120086, 120092), (120094, 120121), (120123, 120126), (120128, 120132), (120134, 120134),
   (120138, 120144), (120146, 120485), (120488, 120512), (120514, 120538), (120540, 120570), (120572, 120596),
   (120598, 120628), (120630, 120654), (120656, 120686), (120688, 120712), (120714, 120744), (120746, 120770),
   (120772, 120779), (122624, 122633), (122635, 122654), (125184, 125251), (127280, 127305), (127312, 127337),
   (127344, 127369)]

/-- Code point ranges with the property `Case_Ignorable` (marks, modifiers, format
characters and the punctuation that may stand inside a word), version 14.0 of the
database. -/
def caseIgnorableTable : List (Nat × Nat) :=
  [(39, 39), (46, 46), (58, 58), (94, 94), (96, 96), (168, 168),
   (173, 173), (175, 175), (180, 180), (183, 184), (688, 879), (884, 885),
   (890, 890), (900, 901), (903, 903), (1155, 1161), (1369, 1369), (1375, 1375),
   (1425, 1469), (1471, 1471), (1473, 1474), (1476, 1477), (1479, 1479), (1524, 1524),
   (1536, 1541), (1552, 1562), (1564, 1564), (1600, 1600), (1611, 1631), (1648, 1648),
   (1750, 1757), (1759, 1768), (1770, 1773), (1807, 1807), (1809, 1809), (1840, 1866),
   (1958, 1968), (2027, 2037), (2042, 2042), (2045, 2045), (2070, 2093), (2137, 2139),
   (2184, 2184), (2192, 2193), (2200, 2207), (2249, 2306), (2362, 2362), (2364, 2364),
   (2369, 2376), (2381, 2381), (2385, 2391), (2402, 2403), (2417, 2417), (2433, 2433),
   (2492, 2492), (2497, 2500), (2509, 2509), (2530, 2531), (2558, 2558), (2561, 2562),
   (2620, 2620), (2625, 2626), (2631, 2632), (2635, 2637), (2641, 2641), (2672, 2673),
   (2677, 2677), (2689, 2690), (2748, 2748), (2753, 2757), (2759, 2760), (2765, 2765),
   (2786, 2787), (2810, 2815), (2817, 2817), (2876, 2876), (2879, 2879), (2881, 2884),
   (2893, 2893), (2901, 2902), (2914, 2915), (2946, 2946), (3008, 3008), (3021, 3021),
   (3072, 3072), (3076, 3076), (3132, 3132), (3134, 3136), (3142, 3144), (3146, 3149),
   (3157, 3158), (3170, 3171), (3201, 3201), (3260, 3260), (3263, 3263), (3270, 3270),
   (3276, 3277), (3298, 3299), (3328, 3329), (3387, 3388), (3393, 3396), (3405, 3405),
   (3426, 3427), (3457, 3457), (3530, 3530), (3538, 3540), (3542, 3542), (3633, 3633),
   (3636, 3642), (3654, 3662), (3761, 3761), (3764, 3772), (3782, 3782), (3784, 3789),
   (3864, 3865), (3893, 3893), (3895, 3895), (3897, 3897), (3953, 3966), (3968, 3972),
   (3974, 3975), (3981, 3991), (3993, 4028), (4038, 4038), (4141, 4144), (4146, 4151),
   (4153, 4154), (4157, 4158), (4184, 4185), (4190, 4192), (4209, 4212), (4226, 4226),
   (4229, 4230), (4237, 4237), (4253, 4253), (4348, 4348), (4957, 4959), (5906, 5908),
   (5938, 5939), (5970, 5971), (6002, 6003), (6068, 6069), (6071, 6077), (6086, 6086),
   (6089, 6099), (6103, 6103), (6109, 6109), (6155, 6159), (6211, 6211), (6277, 6278),
   (6313, 6313), (6432, 6434), (6439, 6440), (6450, 6450), (6457, 6459), (6679, 6680),
   (6683, 6683), (6742, 6742), (6744, 6750), (6752, 6752), (6754, 6754), (6757, 6764),
   (6771, 6780), (6783, 6783), (6823, 6823), (6832, 6862), (6912, 6915), (6964, 6964),
   (6966, 6970), (6972, 6972), (6978, 6978), (7019, 7027), (7040, 7041), (7074, 7077),
   (7080, 7081), (7083, 7085), (7142, 7142), (7144, 7145), (7149, 7149), (7151, 7153),
   (7212, 7219), (7222, 7223), (7288, 7293), (7376, 7378), (7380, 7392), (7394, 7400),
   (7405, 7405), (7412, 7412), (7416, 7417), (7468, 7530), (7544, 7544), (7579, 7679),
   (8125, 8125), (8127, 8129), (8141, 8143), (8157, 8159), (8173, 8175), (8189, 8190),
   (8203, 8207), (8216, 8217), (8228, 8228), (8231, 8231), (8234, 8238), (8288, 8292),
   (8294, 8303), (8305, 8305), (8319, 8319), (8336, 8348), (8400, 8432), (11388, 11389),
   (11503, 11505), (11631, 11631), (11647, 11647), (11744, 11775), (11823, 11823), (12293, 12293),
   (12330, 12333), (12337, 12341), (12347, 12347), (12441, 12446), (12540, 12542), (40981, 40981),
   (42232, 42237), (42508, 42508), (42607, 42610), (42612, 42621), (42623, 42623), (42652, 42655),
   (42736, 42737), (42752, 42785), (42864, 42864), (42888, 42890), (42994, 42996), (43000, 43001),
   (43010, 43010), (43014, 43014), (43019, 43019), (43045, 43046), (43052, 43052), (43204, 43205),
   (43232, 43249), (43263, 43263), (43302, 43309), (43335, 43345), (43392, 43394), (43443, 43443),
   (43446, 43449), (43452, 43453), (43471, 43471), (43493, 43494), (43561, 43566), (43569, 43570),
   (43573, 43574), (43587, 43587), (43596, 43596), (43632, 43632), (43644, 43644), (43696, 43696),
   (43698, 43700), (43703, 43704), (43710, 43711), (43713, 43713), (43741, 43741), (43756, 43757),
   (43763, 43764), (43766, 43766), (43867, 43871), (43881, 43883), (44005, 44005), (44008, 44008),
   (44013, 44013), (64286, 64286), (64434, 64450), (65024, 65039), (65043, 65043), (65056, 65071),
   (65106, 65106), (65109, 65109), (65279, 65279), (65287, 65287), (65294, 65294), (65306, 65306),
   (65342, 65342), (65344, 65344), (65392, 65392), (65438, 65439), (65507, 65507), (65529, 65531),
   (66045, 66045), (66272, 66272), (66422, 66426), (67456, 67461), (67463, 67504), (67506, 67514),
   (68097, 68099), (68101, 68102), (68108, 68111), (68152, 68154), (68159, 68159), (68325, 68326),
   (68900, 68903), (69291, 69292), (69446, 69456), (69506, 69509), (69633, 69633), (69688, 69702),
   (69744, 69744), (69747, 69748), (69759, 69761), (69811, 69814), (69817, 69818), (69821, 69821),
   (69826, 69826), (69837, 69837), (69888, 69890), (69927, 69931), (69933, 69940), (70003, 70003),
   (70016, 70017), (70070, 70078), (70089, 70092), (70095, 70095), (70191, 70193), (70196, 70196),
   (70198, 70199), (70206, 70206), (70367, 70367), (70371, 70378), (70400, 70401), (70459, 70460),
   (70464, 70464), (70502, 70508), (70512, 70516), (70712, 70719), (70722, 70724), (70726, 70726),
   (70750, 70750), (70835, 70840), (70842, 70842), (70847, 70848), (70850, 70851), (71090, 71093),
   (71100, 71101), (71103, 71104), (71132, 71133), (71219, 71226), (71229, 71229), (71231, 71232),
   (71339, 71339), (71341, 71341), (71344, 71349), (71351, 71351), (71453, 71455), (71458, 71461),
   (71463, 71467), (71727, 71735), (71737, 71738), (71995, 71996), (71998, 71998), (72003, 72003),
   (72148, 72151), (72154, 72155), (72160, 72160), (72193, 72202), (72243, 72248), (72251, 72254),
   (72263, 72263), (72273, 72278), (72281, 72283), (72330, 72342), (72344, 72345), (72752, 72758),
   (72760, 72765), (72767, 72767), (72850, 72871), (72874, 72880), (72882, 72883), (72885, 72886),
   (73009, 73014), (73018, 73018), (73020, 73021), (73023, 73029), (73031, 73031), (73104, 73105),
   (73109, 73109), (73111, 73111), (73459, 73460), (78896, 78904), (92912, 92916), (92976, 92982),
   (92992, 92995), (94031, 94031), (94095, 94111), (94176, 94177), (94179, 94180), (110576, 110579),
   (110581, 110587), (110589, 110590), (113821, 113822), (113824, 113827), (118528, 118573), (118576, 118598),
   (119143, 119145), (119155, 119170), (119173, 119179), (119210, 119213), (119362, 119364), (121344, 121398),
   (121403, 121452), (121461, 121461), (121476, 121476), (121499, 121503), (121505, 121519), (122880, 122886),
   (122888, 122904), (122907, 122913), (122915, 122916), (122918, 122922), (123184, 123197), (123566, 123566),
   (123628, 123631), (125136, 125142), (125252, 125259), (127995, 127999), (917505, 917505), (917536, 917631),
   (917760, 917999)]

/-- Membership of a code point in a table of ranges. -/
def inTable (n : Nat) (table : List (Nat × Nat)) : Bool :=
  table.any (fun r => decide (r.1 ≤ n) && decide (n ≤ r.2))

/-- The property `Cased` of a character. -/
def isCased (c : Char) : Bool :=
  inTable c.toNat casedTable

/-- The property `Case_Ignorable` of a character. -/
def isCaseIgnorable (c : Char) : Bool :=
  inTable c.toNat caseIgnorableTable

/-- Lower-case mapping of one character taken alone: its entry in `lowerCaseTable`, or the
character itself when it has none. -/
def toLowerChar (c : Char) : Char :=
  match lowerCaseTable.findSome? (fun r =>
      if r.1 ≤ c.toNat ∧ c.toNat ≤ r.2.1 ∧ (c.toNat - r.1) % r.2.2.1 = 0 then
        some (r.2.2.2 + (c.toNat - r.1))
      else none) with
  | some n => Char.ofNat n
  | none => c

/-- Scanning away from a capital sigma: the first character that is not case-ignorable
exists and is cased. -/
def reachesCased (cs : List Char) : Bool :=
  match cs.dropWhile isCaseIgnorable with
  | c :: _ => isCased c
  | [] => false

/-- The condition `Final_Sigma`: a cased letter stands before the sigma and none after it,
case-ignorable characters skipped; `before` lists the preceding characters nearest first. -/
def isFinalSigma (before after : List Char) : Bool :=
  reachesCased before && !reachesCased after

/-- Lower-case mapping of one character in its context: the capital sigma (U+03A3) in final
position becomes the final small sigma (U+03C2), the capital I with dot above (U+0130)
becomes `i` followed by the combining dot above, every other character follows
`toLowerChar`. -/
def lowerInContext (before : List Char) (c : Char) (after : List Char) : List Char :=
  if c.toNat = 931 ∧ isFinalSigma before after = true then [Char.ofNat 962]
  else if c.toNat = 304 then [Char.ofNat 105, Char.ofNat 775]
  else [toLowerChar c]

/-- Lower-casing of the characters still to read, given the characters already read
(nearest first). -/
def lowerFrom (before : List Char) : List Char → List Char
  | [] => []
  | c :: after => lowerInContext before c after ++ lowerFrom (c :: before) after

/-- The builtin `String.prototype.toLowerCase`: the locale-insensitive lower-case mapping of
the Unicode Character Database, special casing included. -/
def toLowerCase (s : String) : String :=
  String.mk (lowerFrom [] s.data)

/-- Substring search on character lists: `q` occurs in `s` at some offset. -/
def includesChars : List Char → List Char → Bool
  | [], q => q.isEmpty
  | c :: cs, q => q.isPrefixOf (c :: cs) || includesChars cs q

/-- The builtin `String.prototype.includes`. -/
def includes (s q : String) : Bool :=
  includesChars s.data q.data

/-- Truthiness of a string value: every string but the empty one. -/
def truthy (s : String) : Bool :=
  s != ""

/-- Truthiness of an optional string field: present and not empty. -/
def truthyField : Option String → Bool
  | some s => truthy s
  | none => false

/-- UTF-16 code units of one character. -/
def utf16 (c : Char) : List Nat :=
  if c.toNat < 65536 then [c.toNat]
  else [55296 + (c.toNat - 65536) / 1024, 56320 + (c.toNat - 65536) % 1024]

/-- UTF-16 code units of a string. -/
def codeUnits (s : String) : List Nat :=
  s.data.flatMap utf16

/-- Lexicographic comparison of code unit sequences: `a` is not after `b`. -/
def unitsLe : List Nat → List Nat → Bool
  | [], _ => true
  | _ :: _, [] => false
  | a :: as, b :: bs => decide (a < b) || (a == b && unitsLe as bs)

/-- Order used by `Array.prototype.sort` without a comparator: strings compared by code
units. -/
def sortLe (x y : String) : Prop :=
  unitsLe (codeUnits x) (codeUnits y) = true

instance sortLe_decidable : DecidableRel sortLe :=
  fun x y => inferInstanceAs (Decidable (unitsLe (codeUnits x) (codeUnits y) = true))

/-- The builtin `Array.prototype.sort()` on strings: the stable sorted rearrangement. -/
def sort (xs : List String) : List String :=
  xs.insertionSort sortLe

/-- The method `Set.prototype.add` on a set of strings kept in insertion order. -/
def setAdd (set : List String) (x : String) : List String :=
  if x ∈ set then set else set ++ [x]

/-! ## Text utilities -/

/-- One pass `str.replace(/c/g, r)`: every occurrence of the character `c` becomes `r`. -/
def replaceAll (c : Char) (r : String) : List Char → List Char
  | [] => []
  | x :: xs => (if x = c then r.data else [x]) ++ replaceAll c r xs

/-- The function `escapeHtml`: five replacement passes, in the order of the source. -/
def escapeHtml (str : String) : String :=
  String.mk
    (replaceAll (Char.ofNat 39) "&#039;"
      (replaceAll (Char.ofNat 34) "&quot;"
        (replaceAll '>' "&gt;"
          (replaceAll '<' "&lt;"
            (replaceAll '&' "&amp;" str.data)))))

/-- The function `getRussianPlural`. -/
def getRussianPlural {α : Type} (count : Nat) (one two five : α) : α :=
  let mod10 := count % 10
  let mod100 := count % 100
  if mod100 ≥ 11 ∧ mod100 ≤ 19 then five
  else if mod10 = 1 then one
  else if mod10 ≥ 2 ∧ mod10 ≤ 4 then two
  else five

/-! ## Records and page state -/

/-- One record of the dataset. -/
structure University where
  name : String
  city : Option String := none
  location : Option String := none
  score_min : Option Int := none
  score_max : Option Int := none
  url : Option String := none
  specialization : Option String := none
deriving DecidableEq, Repr

/-- Values the script can throw. -/
inductive JsError where
  | typeError
  | syntaxError
  | httpError
  | networkError
deriving DecidableEq, Repr

/-- The host page and the two script variables. -/
structure Page where
  grid : Option String
  uniqueUniCount : Option String
  totalSpecsCount : Option String
  searchValue : String
  specValue : String
  specOptions : List String
  listening : Bool
  universities : List University
  specializations : List String
deriving DecidableEq, Repr

/-- Outcome of running a function of the script: the page left behind, and the value
thrown if the function did not complete. -/
structure Run where
  page : Page
  thrown : Option JsError
deriving DecidableEq, Repr

/-- A host page with every mount point present and nothing loaded yet. -/
def hostPage : Page :=
  { grid := some "", uniqueUniCount := some "", totalSpecsCount := some "",
    searchValue := "", specValue := "", specOptions := [], listening := false,
    universities := [], specializations := [] }

/-- The function `getDemoData`. -/
def getDemoData : List University :=
  [ { name := "БелГУ", location := some "Белгород", score_min := some 220,
      score_max := some 250, url := some "https://bsu.edu.ru",
      specialization := some "Программная инженерия" },
    { name := "ВГУ", location := some "Воронеж", score_min := some 225,
      score_max := some 255, url := some "https://www.vsu.ru",
      specialization := some "Data Science" },
    { name := "МГУ", location := some "Москва", score_min := some 280,
      score_max := some 300, url := some "https://www.msu.ru",
      specialization := some "AI/ML инженерия" } ]

/-! ## Renderer -/

/-- The set `uniqueUnis` of `render`: the names added one record after the other. -/
def uniqueUnis (list : List University) : List String :=
  list.foldl (fun set u => setAdd set u.name) []

/-- The set `uniqueSpecs` of `render`: a specialization is added when it is truthy. -/
def uniqueSpecs (list : List University) : List String :=
  list.foldl
    (fun set u =>
      match u.specialization with
      | some s => if truthy s then setAdd set s else set
      | none => set)
    []

/-- Text written to the element `uniqueUniCount`. -/
def uniText (list : List University) : String :=
  let uniCount := (uniqueUnis list).length
  toString uniCount ++ " " ++ getRussianPlural uniCount "вуз" "вуза" "вузов"

/-- Text written to the element `totalSpecsCount`. -/
def specText (list : List University) : String :=
  let specCount := (uniqueSpecs list).length
  toString specCount ++ " " ++
    getRussianPlural specCount "специальность" "специальности" "специальностей"

/-- One entry of a group's `specializations` array. -/
structure SpecEntry where
  name : String
  score_min : Option Int
  score_max : Option Int
deriving DecidableEq, Repr

/-- One value stored in the object `groupedUnis`. -/
structure Group where
  name : String
  city : Option String
  url : Option String
  specializations : List SpecEntry
deriving DecidableEq, Repr

/-- Own properties of the object `groupedUnis`, in creation order. -/
abbrev GroupedUnis := List (String × Group)

/-- Property names that an object literal inherits from `Object.prototype`; each one reads
as a function or an object, hence as a truthy value without a `specializations` property. -/
def objectPrototypeKeys : List String :=
  ["constructor", "__defineGetter__", "__defineSetter__", "hasOwnProperty",
   "__lookupGetter__", "__lookupSetter__", "isPrototypeOf", "propertyIsEnumerable",
   "toString", "valueOf", "__proto__", "toLocaleString"]

/-- Result of reading `groupedUnis[key]`. -/
inductive PropertyValue where
  | own (group : Group)
  | inherited
  | undefined
deriving DecidableEq, Repr

/-- Reading `groupedUnis[key]`: an own property first, then the prototype. -/
def getProperty (obj : GroupedUnis) (key : String) : PropertyValue :=
  match obj.lookup key with
  | some group => PropertyValue.own group
  | none => if key ∈ objectPrototypeKeys then PropertyValue.inherited else PropertyValue.undefined

/-- Writing an own property: an existing key keeps its place, a new key goes last. -/
def setProperty : GroupedUnis → String → Group → GroupedUnis
  | [], key, group => [(key, group)]
  | (k, v) :: rest, key, group =>
    if k = key then (k, group) :: rest else (k, v) :: setProperty rest key group

/-- The entry pushed for a record; the placeholder stands in for a falsy specialization. -/
def specEntry (u : University) : SpecEntry :=
  { name := if truthyField u.specialization then u.specialization.getD "" else "Без специализации",
    score_min := u.score_min,
    score_max := u.score_max }

/-- Body of the grouping loop for one record: create the group when `groupedUnis[u.name]`
is falsy, then push the entry on `groupedUnis[u.name].specializations`. -/
def groupStep (groupedUnis : GroupedUnis) (u : University) : Except JsError GroupedUnis :=
  let created :=
    match getProperty groupedUnis u.name with
    | PropertyValue.undefined =>
      setProperty groupedUnis u.name
        { name := u.name, city := u.city, url := u.url, specializations := [] }
    | _ => groupedUnis
  match getProperty created u.name with
  | PropertyValue.own group =>
    Except.ok (setProperty created u.name
      { group with specializations := group.specializations ++ [specEntry u] })
  | PropertyValue.inherited => Except.error JsError.typeError
  | PropertyValue.undefined => Except.error JsError.typeError

/-- The grouping loop `list.forEach(...)`, started from the object `groupedUnis`. -/
def groupUnis : GroupedUnis → List University → Except JsError GroupedUnis
  | groupedUnis, [] => Except.ok groupedUnis
  | groupedUnis, u :: rest =>
    match groupStep groupedUnis u with
    | Except.ok next => groupUnis next rest
    | Except.error e => Except.error e

/-- The array index a property name denotes, if it is one: a canonical decimal numeral
below `2^32 - 1`. -/
def arrayIndex (key : String) : Option Nat :=
  let cs := key.data
  if cs ≠ [] ∧ cs.all Char.isDigit ∧ (cs = ['0'] ∨ cs.head? ≠ some '0') then
    let n := cs.foldl (fun a c => 10 * a + (c.toNat - 48)) 0
    if n < 4294967295 then some n else none
  else none

/-- The builtin `Object.values`: array-index keys in ascending order first, then the other
keys in creation order. -/
def objectValues (obj : GroupedUnis) : List Group :=
  ((obj.filter (fun kv => (arrayIndex kv.1).isSome)).insertionSort
      (fun a b => (arrayIndex a.1).getD 0 ≤ (arrayIndex b.1).getD 0)).map Prod.snd ++
    (obj.filter (fun kv => !(arrayIndex kv.1).isSome)).map Prod.snd

/-- Template interpolation of a number.  A numeric field is modelled by an integer that the
engine holds exactly (magnitude below `2^53`); such a number prints as its decimal digits.
Fractional and larger values are outside the model. -/
def numberText (n : Int) : String :=
  toString n

/-- Markup of one specialization line. -/
def specItemHtml (spec : SpecEntry) : String :=
  let score :=
    match spec.score_min, spec.score_max with
    | some lo, some hi => numberText lo ++ "–" ++ numberText hi
    | _, _ => "—"
  "\n\t\t\t\t\t<div class=\"spec-item\">\n\t\t\t\t\t\t<span class=\"spec-name\">" ++
    escapeHtml spec.name ++
    "</span>\n\t\t\t\t\t\t<span class=\"spec-score\">" ++
    score ++
    "</span>\n\t\t\t\t\t</div>\n\t\t\t\t"

/-- Markup of the outbound link of a card; nothing when the url is falsy. -/
def linkHtml (uni : Group) : String :=
  if truthyField uni.url then
    "<a class=\"btn btn-primary\" href=\"" ++ uni.url.getD "" ++
      "\" target=\"_blank\" rel=\"noopener\">Перейти на сайт</a>"
  else ""

/-- Markup of one card. -/
def cardHtml (uni : Group) : String :=
  let link := linkHtml uni
  let specializationsHtml := String.join (uni.specializations.map specItemHtml)
  "\n\t\t\t\t<div class=\"uni-card\">\n\t\t\t\t\t<div class=\"uni-card-head\">\n\t\t\t\t\t\t<h3 class=\"uni-title\">" ++
    escapeHtml uni.name ++
    "</h3>\n\t\t\t\t\t\t<div class=\"uni-meta\">\n\t\t\t\t\t\t\t<div class=\"uni-meta-item\"><i class=\"fas fa-location-dot\"></i><span>" ++
    escapeHtml (if truthyField uni.city then uni.city.getD "" else "—") ++
    "</span></div>\n\t\t\t\t\t\t</div>\n\t\t\t\t\t</div>\n\t\t\t\t\t<div class=\"uni-specializations\">\n\t\t\t\t\t\t<h4 class=\"specs-title\">Специальности:</h4>\n\t\t\t\t\t\t" ++
    specializationsHtml ++
    "\n\t\t\t\t\t</div>\n\t\t\t\t\t<div class=\"uni-actions\">\n\t\t\t\t\t\t" ++
    link ++
    "\n\t\t\t\t\t</div>\n\t\t\t\t</div>\n\t\t\t"

/-- The cards of a list, one string per value of `groupedUnis`, before they are joined. -/
def cards (list : List University) : Except JsError (List String) :=
  match groupUnis [] list with
  | Except.ok groupedUnis => Except.ok ((objectValues groupedUnis).map cardHtml)
  | Except.error e => Except.error e

/-- Markup of the empty state. -/
def emptyHtml : String :=
  "<div class=\"uni-empty\">Ничего не найдено</div>"

/-- The two summary updates at the start of `render`, each skipped when its element is
missing. -/
def updateSummary (list : List University) (page : Page) : Page :=
  let page1 :=
    match page.uniqueUniCount with
    | some _ => { page with uniqueUniCount := some (uniText list) }
    | none => page
  match page1.totalSpecsCount with
  | some _ => { page1 with totalSpecsCount := some (specText list) }
  | none => page1

/-- The function `render`. -/
def render (list : List University) (page : Page) : Run :=
  let page2 := updateSummary list page
  match page2.grid with
  | none => { page := page2, thrown := none }
  | some _ =>
    if list.length = 0 then
      { page := { page2 with grid := some emptyHtml }, thrown := none }
    else
      match cards list with
      | Except.ok cs => { page := { page2 with grid := some (String.join cs) }, thrown := none }
      | Except.error e => { page := page2, thrown := some e }

/-! ## Filter, option list, loading -/

/-- The constant `filtered` of `applyFilters`: the records kept by the filter callback. -/
def filtered (page : Page) : List University :=
  let q := trim (toLowerCase page.searchValue)
  let spec := page.specValue
  page.universities.filter (fun u =>
    let matchesQuery :=
      !truthy q || (truthy u.name && includes (toLowerCase u.name) q) ||
        (match u.city with
         | some city => truthy city && includes (toLowerCase city) q
         | none => false)
    let matchesSpec := !truthy spec || decide (u.specialization = some spec)
    matchesQuery && matchesSpec)

/-- The function `applyFilters`. -/
def applyFilters (page : Page) : Run :=
  render (filtered page) page

/-- The set built by `populateSpecs` from the variable `universities`. -/
def specSet (universities : List University) : List String :=
  universities.foldl
    (fun set u =>
      match u.specialization with
      | some s => if truthy s then setAdd set s else set
      | none => set)
    []

/-- The function `populateSpecs`. -/
def populateSpecs (page : Page) : Page :=
  let specializations := sort (specSet page.universities)
  { page with
    specializations := specializations,
    specOptions := page.specOptions ++ specializations }

/-- The function `initEvents`: both controls now call `applyFilters`. -/
def initEvents (page : Page) : Page :=
  { page with listening := true }

/-- The sequence shared by the three branches of `loadData`: assign `universities`, then
`populateSpecs()`, `initEvents()`, `render(universities)`. -/
def installDataset (data : List University) (page : Page) : Run :=
  let page1 := initEvents (populateSpecs { page with universities := data })
  render page1.universities page1

/-- Root of a parsed JSON document. -/
inductive JsonRoot where
  | null
  | boolean (b : Bool)
  | number (n : Int)
  | string (s : String)
  | object
  | array (records : List University)
deriving DecidableEq, Repr

/-- Outcome of the request for `universities.json`: the promise rejects, or a response
arrives with its status and with the result of `JSON.parse` on its body (`none` when the
body is not JSON). -/
inductive FetchResult where
  | rejected
  | response (status : Nat) (parsed : Option JsonRoot)
deriving DecidableEq, Repr

/-- The two `then` callbacks of `loadData`. -/
def onResponse (status : Nat) (parsed : Option JsonRoot) (page : Page) : Run :=
  if ¬ (200 ≤ status ∧ status ≤ 299) then { page := page, thrown := some JsError.httpError }
  else
    match parsed with
    | none => { page := page, thrown := some JsError.syntaxError }
    | some JsonRoot.null => { page := page, thrown := some JsError.typeError }
    | some (JsonRoot.array records) => installDataset records page
    | some _ => installDataset [] page

/-- The `catch` callback of `loadData`: it runs when the chain before it has thrown, and
installs the demo data. -/
def onCatch (settled : Run) : Run :=
  match settled.thrown with
  | none => settled
  | some _ => installDataset getDemoData settled.page

/-- The function `loadData`, given the embedded dataset (if the host page set one) and the
outcome of the request. -/
def loadData (embedded : Option (List University)) (result : FetchResult) (page : Page) : Run :=
  match embedded with
  | some (u :: us) => installDataset (u :: us) page
  | _ =>
    onCatch
      (match result with
       | FetchResult.rejected => { page := page, thrown := some JsError.networkError }
       | FetchResult.response status parsed => onResponse status parsed page)

/-! ## Specification-side definitions -/

/-- Replacement of one character as the specification words it: each of the five special
characters becomes its entity, every other character stays. -/
def escapeChar (c : Char) : List Char :=
  if c = '&' then "&amp;".data
  else if c = '<' then "&lt;".data
  else if c = '>' then "&gt;".data
  else if c = Char.ofNat 34 then "&quot;".data
  else if c = Char.ofNat 39 then "&#039;".data
  else [c]

/-- Lower-casing stated position by position: the character at each position of the text is
replaced by its lower-case mapping in the context of the characters before and after it. -/
def lowerCased (s : String) : String :=
  String.mk ((List.range s.data.length).flatMap (fun i =>
    match s.data[i]? with
    | some c => lowerInContext (s.data.take i).reverse c (s.data.drop (i + 1))
    | none => []))

/-- Trimming in the words of the specification: `t` is `s` without its leading and trailing
white space, that is, `s` is white space, then `t`, then white space, and `t` neither
starts nor ends with white space. -/
def IsTrimOf (s t : String) : Prop :=
  ∃ a b : List Char, s.data = a ++ t.data ++ b ∧
    (∀ c ∈ a, isWhiteSpace c = true) ∧ (∀ c ∈ b, isWhiteSpace c = true) ∧
    (∀ c, t.data.head? = some c → isWhiteSpace c = false) ∧
    (∀ c, t.data.getLast? = some c → isWhiteSpace c = false)

/-- A small catalogue in three alphabets, to exercise the filter. -/
def sampleCatalogue : List University :=
  [ { name := "ҚазҰУ", city := some "Алматы", specialization := some "Информатика" },
    { name := "ČVUT", city := some "Praha", specialization := some "Informatika" },
    { name := "МГУ", city := some "Москва", specialization := some "Информатика" },
    { name := "ΕΜΠ", city := some "ΑΘΗΝΑ, ΟΔΟΣ", specialization := none } ]

/-- The host page with the sample catalogue loaded and the two controls set. -/
def samplePage (searchValue specValue : String) : Page :=
  { hostPage with
    universities := sampleCatalogue, searchValue := searchValue, specValue := specValue }

/-- Query condition of the filter, in the words of the specification. -/
def queryCondition (q : String) (u : University) : Prop :=
  q = "" ∨ q.data <:+: (lowerCased u.name).data ∨
    ∃ city ∈ u.city, q.data <:+: (lowerCased city).data

/-- Specialization condition of the filter, in the words of the specification. -/
def specializationCondition (selection : String) (u : University) : Prop :=
  selection = "" ∨ u.specialization = some selection

instance queryCondition_decidable (q : String) (u : University) :
    Decidable (queryCondition q u) := by
  unfold queryCondition; infer_instance

instance specializationCondition_decidable (selection : String) (u : University) :
    Decidable (specializationCondition selection u) := by
  unfold specializationCondition; infer_instance

/-- The five passes of `escapeHtml` on a character list. -/
def passes (l : List Char) : List Char :=
  replaceAll (Char.ofNat 39) "&#039;"
    (replaceAll (Char.ofNat 34) "&quot;"
      (replaceAll '>' "&gt;" (replaceAll '<' "&lt;" (replaceAll '&' "&amp;" l))))

/-- The truthy specialization of a record, if it has one. -/
def specOf (u : University) : Option String :=
  match u.specialization with
  | some s => if truthy s then some s else none
  | none => none

/-- Number of distinct name values of a list, as the specification counts them. -/
def distinctNames (list : List University) : Nat :=
  (list.map University.name).toFinset.card

/-- Number of distinct non-empty specialization values of a list, as the specification
counts them. -/
def distinctSpecs (list : List University) : Nat :=
  ((list.filterMap University.specialization).filter (fun s => s ≠ "")).toFinset.card

/-- A record whose url carries markup. -/
def markupUrlRecord : University :=
  { name := "X", url := some "\"><script>alert(1)</script>" }

/-- A record named like a property every object inherits. -/
def constructorRecord : University :=
  { name := "constructor" }

/-- The page once the demo data is installed and the user has typed the query of
scenario B. -/
def demoQueryPage : Page :=
  { (installDataset getDemoData hostPage).page with searchValue := "москв" }

/-- The specialization entry a record contributes: its scores, and its specialization or
the placeholder when the specialization is absent or empty. -/
def entryOf (u : University) : SpecEntry :=
  { name :=
      match u.specialization with
      | some s => if s = "" then "Без специализации" else s
      | none => "Без специализации",
    score_min := u.score_min,
    score_max := u.score_max }

/-- The group a list determines for a name: city and url of the first record with that
name, and one entry per record with that name, in list order. -/
def groupOf (list : List University) (name : String) : Option Group :=
  (list.find? (fun u => u.name = name)).map (fun first =>
    { name := name, city := first.city, url := first.url,
      specializations := (list.filter (fun u => u.name = name)).map entryOf })

/-- A record whose specialization is present and empty. -/
def emptySpecRecord : University :=
  { name := "X", specialization := some "" }

/-- Two records of one institution with different specializations (scenario D). -/
def scenarioD : List University :=
  [ { name := "X", city := some "A", specialization := some "S1", score_min := some 1,
      score_max := some 2 },
    { name := "X", city := some "B", specialization := some "S2" } ]

/-- Invariant of the grouping loop after the records `done`: the own properties are the
groups the records determine, under distinct keys. -/
def Grouped (done : List University) (obj : GroupedUnis) : Prop :=
  (obj.map Prod.fst).Nodup ∧ ∀ k : String, obj.lookup k = groupOf done k

/-! ## Text utilities: proofs -/

theorem replaceAll_append (c : Char) (r : String) (a b : List Char) :
    replaceAll c r (a ++ b) = replaceAll c r a ++ replaceAll c r b := by
  induction a with
  | nil => rfl
  | cons x xs ih => simp [replaceAll, ih]

theorem passes_append (a b : List Char) : passes (a ++ b) = passes a ++ passes b := by
  simp [passes, replaceAll_append]

theorem passes_single (x : Char) : passes [x] = escapeChar x := by
  by_cases h1 : x = '&'
  · subst h1; decide
  by_cases h2 : x = '<'
  · subst h2; decide
  by_cases h3 : x = '>'
  · subst h3; decide
  by_cases h4 : x = Char.ofNat 34
  · subst h4; decide
  by_cases h5 : x = Char.ofNat 39
  · subst h5; decide
  simp [passes, replaceAll, escapeChar, h1, h2, h3, h4, h5]

theorem passes_eq_flatMap (l : List Char) : passes l = l.flatMap escapeChar := by
  induction l with
  | nil => rfl
  | cons x xs ih =>
    have : x :: xs = [x] ++ xs := rfl
    rw [this, passes_append, passes_single, ih]
    simp

theorem escapeChar_clean (x c : Char)
    (hc : c = '<' ∨ c = '>' ∨ c = Char.ofNat 34 ∨ c = Char.ofNat 39) :
    c ∉ escapeChar x := by
  unfold escapeChar
  split_ifs with h1 h2 h3 h4 h5
  · rcases hc with h | h | h | h <;> subst h <;> decide
  · rcases hc with h | h | h | h <;> subst h <;> decide
  · rcases hc with h | h | h | h <;> subst h <;> decide
  · rcases hc with h | h | h | h <;> subst h <;> decide
  · rcases hc with h | h | h | h <;> subst h <;> decide
  · simp only [List.mem_singleton]
    rcases hc with h | h | h | h <;> subst h <;> intro e <;> subst e <;> simp_all

/-- C9: for every string, `escapeHtml` equals the character-by-character replacement of
`&`, `<`, `>`, the double quote and the apostrophe by their entities, every other character
unchanged; hence the result contains no `<`, `>`, double quote or apostrophe. -/
theorem escapeHtml_charwise (s : String) :
    escapeHtml s = String.mk (s.data.flatMap escapeChar) ∧
      '<' ∉ (escapeHtml s).data ∧ '>' ∉ (escapeHtml s).data ∧
      Char.ofNat 34 ∉ (escapeHtml s).data ∧ Char.ofNat 39 ∉ (escapeHtml s).data := by
  have h : escapeHtml s = String.mk (s.data.flatMap escapeChar) := by
    show String.mk (passes s.data) = _
    rw [passes_eq_flatMap]
  have clean : ∀ c, (c = '<' ∨ c = '>' ∨ c = Char.ofNat 34 ∨ c = Char.ofNat 39) →
      c ∉ (escapeHtml s).data := by
    intro c hc hmem
    rw [h] at hmem
    obtain ⟨x, _, hx⟩ := List.mem_flatMap.1 hmem
    exact escapeChar_clean x c hc hx
  exact ⟨h, clean _ (Or.inl rfl), clean _ (Or.inr (Or.inl rfl)),
    clean _ (Or.inr (Or.inr (Or.inl rfl))), clean _ (Or.inr (Or.inr (Or.inr rfl)))⟩

/-- C5: `getRussianPlural` returns the many form when `count % 100` is in 11..19, otherwise
the one form when `count % 10` is 1, otherwise the few form when `count % 10` is in 2..4,
otherwise the many form; 1 gives one, 2, 3 and 4 give few, 5 through 20 give many, 21 gives
one. -/
theorem getRussianPlural_rule {α : Type} (one few many : α) :
    (∀ count : Nat, getRussianPlural count one few many =
      if 11 ≤ count % 100 ∧ count % 100 ≤ 19 then many
      else if count % 10 = 1 then one
      else if 2 ≤ count % 10 ∧ count % 10 ≤ 4 then few
      else many) ∧
    getRussianPlural 1 one few many = one ∧
    getRussianPlural 2 one few many = few ∧
    getRussianPlural 3 one few many = few ∧
    getRussianPlural 4 one few many = few ∧
    (∀ i : Fin 16, getRussianPlural (5 + i.val) one few many = many) ∧
    getRussianPlural 21 one few many = one := by
  refine ⟨fun count => rfl, rfl, rfl, rfl, rfl, ?_, rfl⟩
  intro i
  fin_cases i <;> rfl

theorem includesChars_iff (s q : List Char) : includesChars s q = true ↔ q <:+: s := by
  induction s with
  | nil => cases q <;> simp [includesChars]
  | cons c cs ih =>
    simp only [includesChars, Bool.or_eq_true, List.infix_cons_iff, ih,
      List.isPrefixOf_iff_prefix]

theorem includes_iff (s q : String) : includes s q = true ↔ q.data <:+: s.data :=
  includesChars_iff s.data q.data

theorem truthy_iff (s : String) : truthy s = true ↔ s ≠ "" := by
  simp [truthy]

theorem infix_empty_iff (q : String) : q.data <:+: "".data ↔ q = "" := by
  constructor
  · intro h
    have : q.data = [] := List.eq_nil_of_infix_nil h
    exact String.ext this
  · rintro rfl; exact List.infix_refl _

theorem trim_isTrimOf (s : String) : IsTrimOf s (trim s) := by
  have h1 := List.takeWhile_append_dropWhile isWhiteSpace s.data
  have h2 := List.takeWhile_append_dropWhile isWhiteSpace
    (s.data.dropWhile isWhiteSpace).reverse
  have hm : s.data.dropWhile isWhiteSpace =
      ((s.data.dropWhile isWhiteSpace).reverse.dropWhile isWhiteSpace).reverse ++
        ((s.data.dropWhile isWhiteSpace).reverse.takeWhile isWhiteSpace).reverse := by
    rw [← List.reverse_append, h2, List.reverse_reverse]
  refine ⟨s.data.takeWhile isWhiteSpace,
    ((s.data.dropWhile isWhiteSpace).reverse.takeWhile isWhiteSpace).reverse, ?_, ?_, ?_, ?_, ?_⟩
  · show s.data = _ ++ ((s.data.dropWhile isWhiteSpace).reverse.dropWhile isWhiteSpace).reverse
      ++ _
    rw [List.append_assoc, ← hm, h1]
  · exact fun c hc => List.mem_takeWhile_imp hc
  · exact fun c hc => List.mem_takeWhile_imp (List.mem_reverse.1 hc)
  · intro c hc
    change ((s.data.dropWhile isWhiteSpace).reverse.dropWhile isWhiteSpace).reverse.head?
      = some c at hc
    have hne : ((s.data.dropWhile isWhiteSpace).reverse.dropWhile isWhiteSpace).reverse ≠ [] := by
      intro e; rw [e] at hc; simp at hc
    have hhead : (s.data.dropWhile isWhiteSpace).head? = some c := by
      rw [hm, List.head?_append_of_ne_nil _ hne, hc]
    have := List.head?_dropWhile_not isWhiteSpace s.data
    rw [hhead] at this
    simpa using this
  · intro c hc
    change ((s.data.dropWhile isWhiteSpace).reverse.dropWhile isWhiteSpace).reverse.getLast?
      = some c at hc
    rw [List.getLast?_reverse] at hc
    have := List.head?_dropWhile_not isWhiteSpace (s.data.dropWhile isWhiteSpace).reverse
    rw [hc] at this
    simpa using this

theorem dropWhile_append_all (p : Char → Bool) (a x : List Char) (h : ∀ c ∈ a, p c = true) :
    (a ++ x).dropWhile p = x.dropWhile p := by
  induction a with
  | nil => rfl
  | cons c cs ih =>
    have hc : p c = true := h c (List.mem_cons_self c cs)
    simp only [List.cons_append, List.dropWhile_cons, hc, if_true]
    exact ih (fun d hd => h d (List.mem_cons_of_mem c hd))

theorem dropWhile_of_head (p : Char → Bool) (x : List Char)
    (h : ∀ c, x.head? = some c → p c = false) : x.dropWhile p = x := by
  cases x with
  | nil => rfl
  | cons c cs => simp [List.dropWhile_cons, h c rfl]

theorem isTrimOf_eq_trim (s t : String) (h : IsTrimOf s t) : t = trim s := by
  obtain ⟨a, b, hs, ha, hb, hhead, hlast⟩ := h
  apply String.ext
  show t.data = ((s.data.dropWhile isWhiteSpace).reverse.dropWhile isWhiteSpace).reverse
  have hb2 : ∀ c ∈ b.reverse, isWhiteSpace c = true := fun c hc => hb c (List.mem_reverse.1 hc)
  rw [hs, List.append_assoc, dropWhile_append_all _ _ _ ha]
  by_cases ht : t.data = []
  · rw [ht, List.nil_append]
    have : b.dropWhile isWhiteSpace = [] := List.dropWhile_eq_nil_iff.2 hb
    rw [this]
    rfl
  · have hd : (t.data ++ b).dropWhile isWhiteSpace = t.data ++ b := by
      apply dropWhile_of_head
      intro c hc
      rw [List.head?_append_of_ne_nil _ ht] at hc
      exact hhead c hc
    rw [hd, List.reverse_append, dropWhile_append_all _ _ _ hb2]
    have hr : t.data.reverse.dropWhile isWhiteSpace = t.data.reverse := by
      apply dropWhile_of_head
      intro c hc
      rw [List.head?_reverse] at hc
      exact hlast c hc
    rw [hr, List.reverse_reverse]

theorem lowerFrom_positions (rest pre : List Char) :
    lowerFrom pre.reverse rest =
      (List.range rest.length).flatMap (fun i =>
        match (pre ++ rest)[pre.length + i]? with
        | some c =>
          lowerInContext ((pre ++ rest).take (pre.length + i)).reverse c
            ((pre ++ rest).drop (pre.length + i + 1))
        | none => []) := by
  induction rest generalizing pre with
  | nil => rfl
  | cons c rest ih =>
    have hpre : c :: pre.reverse = (pre ++ [c]).reverse := by simp
    have hcat : pre ++ c :: rest = (pre ++ [c]) ++ rest := by simp
    rw [lowerFrom, hpre, ih (pre ++ [c]), List.length_cons, List.range_succ_eq_map,
      List.flatMap_cons, List.flatMap_map]
    congr 1
    · have h0 : (pre ++ c :: rest)[pre.length + 0]? = some c := by
        rw [Nat.add_zero, List.getElem?_append_right (Nat.le_refl _), Nat.sub_self]
        simp
      simp only [h0]
      simp
    · apply List.flatMap_congr
      intro i _
      have hlen : pre.length + (i + 1) = (pre ++ [c]).length + i := by
        simp [List.length_append]; omega
      simp only [Function.comp, Nat.succ_eq_add_one, hlen, ← hcat]

theorem toLowerCase_eq_lowerCased (s : String) : toLowerCase s = lowerCased s := by
  unfold toLowerCase lowerCased
  have := lowerFrom_positions s.data []
  simp only [List.reverse_nil, List.nil_append, List.length_nil, Nat.zero_add] at this
  rw [this]

theorem filtered_eq (page : Page) :
    filtered page =
      page.universities.filter (fun u =>
        decide (queryCondition (trim (toLowerCase page.searchValue)) u ∧
          specializationCondition page.specValue u)) := by
  unfold filtered
  apply List.filter_congr
  intro u _
  rw [Bool.eq_iff_iff]
  simp only [Bool.and_eq_true, Bool.or_eq_true, Bool.not_eq_true', decide_eq_true_eq,
    queryCondition, specializationCondition]
  simp only [← toLowerCase_eq_lowerCased]
  have ht : ∀ s : String, truthy s = false ↔ s = "" := by
    intro s; simp [truthy]
  have hname : ∀ q : String, q ≠ "" →
      ((truthy u.name = true ∧ includes (toLowerCase u.name) q = true) ↔
        q.data <:+: (toLowerCase u.name).data) := by
    intro q hq
    rw [includes_iff, truthy_iff]
    constructor
    · exact fun h => h.2
    · intro h
      refine ⟨?_, h⟩
      rintro e
      rw [e] at h
      exact hq ((infix_empty_iff q).1 h)
  have hcity : ∀ q : String, q ≠ "" →
      ((match u.city with
        | some city => truthy city && includes (toLowerCase city) q
        | none => false) = true ↔
        ∃ city ∈ u.city, q.data <:+: (toLowerCase city).data) := by
    intro q hq
    cases u.city with
    | none => simp
    | some city =>
      simp only [Bool.and_eq_true, Option.mem_def, Option.some.injEq, exists_eq_left']
      rw [includes_iff, truthy_iff]
      constructor
      · exact fun h => h.2
      · intro h
        refine ⟨?_, h⟩
        rintro e
        rw [e] at h
        exact hq ((infix_empty_iff q).1 h)
  by_cases hq : trim (toLowerCase page.searchValue) = ""
  · simp [ht, hq]
  · rw [ht, ht, hname _ hq, hcity _ hq, or_assoc]

set_option maxRecDepth 100000 in
/-- C1: the list `applyFilters` passes to `render` is `filtered`, a sub-list of the dataset
in dataset order, and it holds exactly the records that satisfy the query condition (the
query, lower-cased then trimmed, is empty or occurs in the lower-cased name or city) and the
specialization condition (the selection is empty or equals the record's specialization).
On the sample catalogue: an upper-case query padded with white space finds the record whose
name contains it in another case, a lower-case query finds a capitalized city, and a
selection keeps only the records of that specialization. -/
theorem applyFilters_passes_exact_sublist (page : Page) :
    applyFilters page = render (filtered page) page ∧
      (filtered page).Sublist page.universities ∧
      (∃ q : String, IsTrimOf (lowerCased page.searchValue) q ∧
        filtered page =
          page.universities.filter (fun u =>
            decide (queryCondition q u ∧ specializationCondition page.specValue u))) ∧
      (filtered (samplePage " \tҚАЗ  " "")).map University.name = ["ҚазҰУ"] ∧
      (filtered (samplePage "praha" "")).map University.name = ["ČVUT"] ∧
      (filtered (samplePage "ΟΔΟΣ" "")).map University.name = ["ΕΜΠ"] ∧
      (filtered (samplePage "у" "")).map University.name = ["ҚазҰУ", "МГУ"] ∧
      (filtered (samplePage "" "Информатика")).map University.name = ["ҚазҰУ", "МГУ"] ∧
      (filtered (samplePage "МГ" "Информатика")).map University.name = ["МГУ"] ∧
      filtered (samplePage "  " "") = sampleCatalogue := by
  refine ⟨rfl, ?_, ⟨trim (toLowerCase page.searchValue), ?_, filtered_eq page⟩,
    ?_, ?_, ?_, ?_, ?_, ?_, ?_⟩
  · unfold filtered
    exact List.filter_sublist _
  · rw [← toLowerCase_eq_lowerCased]
    exact trim_isTrimOf _
  all_goals decide

/-! ## Sets kept in insertion order -/

theorem setAdd_nodup (set : List String) (x : String) (h : set.Nodup) :
    (setAdd set x).Nodup := by
  unfold setAdd
  split_ifs with hx
  · exact h
  · exact List.Nodup.append h (List.nodup_singleton x) (by simpa using hx)

theorem mem_setAdd (set : List String) (x y : String) :
    y ∈ setAdd set x ↔ y ∈ set ∨ y = x := by
  unfold setAdd
  split_ifs with hx
  · constructor
    · exact Or.inl
    · rintro (h | rfl)
      · exact h
      · exact hx
  · simp

theorem foldl_setAdd_nodup (xs set : List String) (h : set.Nodup) :
    (xs.foldl setAdd set).Nodup := by
  induction xs generalizing set with
  | nil => exact h
  | cons x xs ih => exact ih _ (setAdd_nodup set x h)

theorem mem_foldl_setAdd (xs set : List String) (y : String) :
    y ∈ xs.foldl setAdd set ↔ y ∈ set ∨ y ∈ xs := by
  induction xs generalizing set with
  | nil => simp
  | cons x xs ih =>
    rw [List.foldl_cons, ih, mem_setAdd, List.mem_cons, or_assoc]

theorem foldl_setAdd_length (xs : List String) :
    (xs.foldl setAdd []).length = xs.toFinset.card := by
  rw [← List.toFinset_card_of_nodup (foldl_setAdd_nodup xs [] List.nodup_nil)]
  congr 1
  ext y
  simp [mem_foldl_setAdd]

theorem uniqueUnis_eq (list : List University) :
    uniqueUnis list = (list.map University.name).foldl setAdd [] := by
  unfold uniqueUnis
  rw [List.foldl_map]

theorem foldl_specs_eq (list : List University) (set : List String) :
    list.foldl
      (fun set u =>
        match u.specialization with
        | some s => if truthy s then setAdd set s else set
        | none => set)
      set = (list.filterMap specOf).foldl setAdd set := by
  induction list generalizing set with
  | nil => rfl
  | cons u us ih =>
    rw [List.foldl_cons, ih]
    cases hs : u.specialization with
    | none => simp [List.filterMap_cons, specOf, hs]
    | some s =>
      by_cases ht : truthy s = true
      · simp [List.filterMap_cons, specOf, hs, ht]
      · simp [List.filterMap_cons, specOf, hs, ht]

theorem mem_filterMap_specOf (list : List University) (s : String) :
    s ∈ list.filterMap specOf ↔ s ≠ "" ∧ ∃ u ∈ list, u.specialization = some s := by
  rw [List.mem_filterMap]
  constructor
  · rintro ⟨u, hu, h⟩
    unfold specOf at h
    cases hs : u.specialization with
    | none => rw [hs] at h; simp at h
    | some t =>
      rw [hs] at h
      by_cases ht : truthy t = true
      · simp only [ht, if_true, Option.some.injEq] at h
        subst h
        exact ⟨(truthy_iff t).1 ht, u, hu, hs⟩
      · simp [ht] at h
  · rintro ⟨hne, u, hu, hs⟩
    refine ⟨u, hu, ?_⟩
    simp [specOf, hs, (truthy_iff s).2 hne]

theorem uniqueUnis_length (list : List University) :
    (uniqueUnis list).length = distinctNames list := by
  rw [uniqueUnis_eq, foldl_setAdd_length, distinctNames]

theorem uniqueSpecs_length (list : List University) :
    (uniqueSpecs list).length = distinctSpecs list := by
  unfold uniqueSpecs distinctSpecs
  rw [foldl_specs_eq, foldl_setAdd_length]
  congr 1
  ext s
  rw [List.mem_toFinset, List.mem_toFinset, mem_filterMap_specOf]
  simp only [List.mem_filter, List.mem_filterMap, decide_eq_true_eq]
  constructor
  · rintro ⟨hne, u, hu, hs⟩
    exact ⟨⟨u, hu, hs⟩, hne⟩
  · rintro ⟨⟨u, hu, hs⟩, hne⟩
    exact ⟨hne, u, hu, hs⟩

/-! ## Renderer: summary -/

theorem render_page_summary (list : List University) (page : Page) :
    (render list page).page.uniqueUniCount = (updateSummary list page).uniqueUniCount ∧
      (render list page).page.totalSpecsCount = (updateSummary list page).totalSpecsCount := by
  unfold render
  simp only
  split
  · exact ⟨rfl, rfl⟩
  · split_ifs
    · exact ⟨rfl, rfl⟩
    · split <;> exact ⟨rfl, rfl⟩

/-- C8: when both summary elements exist, `render` writes the number of distinct names with
the plural form of вуз, and the number of distinct non-empty specializations with the plural
form of специальность, both computed from the argument list alone; the demo records give
"3 вуза" and "3 специальности", the empty list gives counts of zero. -/
theorem render_summary_counts (list : List University) (page : Page)
    (hUni : page.uniqueUniCount.isSome = true) (hSpec : page.totalSpecsCount.isSome = true) :
    (render list page).page.uniqueUniCount =
        some (toString (distinctNames list) ++ " " ++
          getRussianPlural (distinctNames list) "вуз" "вуза" "вузов") ∧
      (render list page).page.totalSpecsCount =
        some (toString (distinctSpecs list) ++ " " ++
          getRussianPlural (distinctSpecs list) "специальность" "специальности"
            "специальностей") ∧
      (render getDemoData page).page.uniqueUniCount = some "3 вуза" ∧
      (render getDemoData page).page.totalSpecsCount = some "3 специальности" ∧
      (render [] page).page.uniqueUniCount = some "0 вузов" ∧
      (render [] page).page.totalSpecsCount = some "0 специальностей" := by
  have key : ∀ l : List University,
      (render l page).page.uniqueUniCount = some (uniText l) ∧
        (render l page).page.totalSpecsCount = some (specText l) := by
    intro l
    obtain ⟨h1, h2⟩ := render_page_summary l page
    rw [h1, h2]
    obtain ⟨a, ha⟩ := Option.isSome_iff_exists.1 hUni
    obtain ⟨b, hb⟩ := Option.isSome_iff_exists.1 hSpec
    simp [updateSummary, ha, hb]
  refine ⟨?_, ?_, ?_, ?_, ?_, ?_⟩
  · rw [(key list).1, uniText, uniqueUnis_length]
  · rw [(key list).2, specText, uniqueSpecs_length]
  · rw [(key getDemoData).1]; decide
  · rw [(key getDemoData).2]; decide
  · rw [(key []).1]; decide
  · rw [(key []).2]; decide

theorem render_summary_counts_witness :
    (hostPage.uniqueUniCount.isSome = true ∧ hostPage.totalSpecsCount.isSome = true) ∧
      ((render getDemoData hostPage).page.uniqueUniCount =
          some (toString (distinctNames getDemoData) ++ " " ++
            getRussianPlural (distinctNames getDemoData) "вуз" "вуза" "вузов") ∧
        (render getDemoData hostPage).page.totalSpecsCount =
          some (toString (distinctSpecs getDemoData) ++ " " ++
            getRussianPlural (distinctSpecs getDemoData) "специальность" "специальности"
              "специальностей") ∧
        (render getDemoData hostPage).page.uniqueUniCount = some "3 вуза" ∧
        (render getDemoData hostPage).page.totalSpecsCount = some "3 специальности" ∧
        (render [] hostPage).page.uniqueUniCount = some "0 вузов" ∧
        (render [] hostPage).page.totalSpecsCount = some "0 специальностей") :=
  ⟨⟨rfl, rfl⟩, render_summary_counts getDemoData hostPage rfl rfl⟩

/-! ## Default sort order -/

theorem unitsLe_total (a b : List Nat) : unitsLe a b = true ∨ unitsLe b a = true := by
  induction a generalizing b with
  | nil => exact Or.inl rfl
  | cons x xs ih =>
    cases b with
    | nil => exact Or.inr rfl
    | cons y ys =>
      simp only [unitsLe, Bool.or_eq_true, Bool.and_eq_true, decide_eq_true_eq, beq_iff_eq]
      rcases Nat.lt_trichotomy x y with h | h | h
      · exact Or.inl (Or.inl h)
      · rcases ih ys with h2 | h2
        · exact Or.inl (Or.inr ⟨h, h2⟩)
        · exact Or.inr (Or.inr ⟨h.symm, h2⟩)
      · exact Or.inr (Or.inl h)

theorem unitsLe_trans (a b c : List Nat) (hab : unitsLe a b = true) (hbc : unitsLe b c = true) :
    unitsLe a c = true := by
  induction a generalizing b c with
  | nil => rfl
  | cons x xs ih =>
    cases b with
    | nil => simp [unitsLe] at hab
    | cons y ys =>
      cases c with
      | nil => simp [unitsLe] at hbc
      | cons z zs =>
        simp only [unitsLe, Bool.or_eq_true, Bool.and_eq_true, decide_eq_true_eq,
          beq_iff_eq] at hab hbc ⊢
        rcases hab with h1 | ⟨h1, h1r⟩
        · rcases hbc with h2 | ⟨h2, _⟩
          · exact Or.inl (Nat.lt_trans h1 h2)
          · exact Or.inl (h2 ▸ h1)
        · rcases hbc with h2 | ⟨h2, h2r⟩
          · exact Or.inl (h1 ▸ h2)
          · exact Or.inr ⟨h1.trans h2, ih ys zs h1r h2r⟩

theorem unitsLe_antisymm (a b : List Nat) (hab : unitsLe a b = true) (hba : unitsLe b a = true) :
    a = b := by
  induction a generalizing b with
  | nil =>
    cases b with
    | nil => rfl
    | cons y ys => simp [unitsLe] at hba
  | cons x xs ih =>
    cases b with
    | nil => simp [unitsLe] at hab
    | cons y ys =>
      simp only [unitsLe, Bool.or_eq_true, Bool.and_eq_true, decide_eq_true_eq,
        beq_iff_eq] at hab hba
      rcases hab with h1 | ⟨h1, h1r⟩
      · rcases hba with h2 | ⟨h2, _⟩
        · exact absurd h1 (Nat.lt_asymm h2)
        · exact absurd h1 (by omega)
      · rcases hba with h2 | ⟨_, h2r⟩
        · exact absurd h2 (by omega)
        · rw [h1, ih ys h1r h2r]

theorem char_toNat_valid (c : Char) :
    c.toNat < 55296 ∨ (57343 < c.toNat ∧ c.toNat < 1114112) := c.valid

theorem char_eq_of_toNat (a b : Char) (h : a.toNat = b.toNat) : a = b := by
  apply Char.ext
  apply UInt32.ext
  exact h

theorem utf16_append_inj (a b : Char) (x y : List Nat) (h : utf16 a ++ x = utf16 b ++ y) :
    a = b ∧ x = y := by
  have ha := char_toNat_valid a
  have hb := char_toNat_valid b
  unfold utf16 at h
  split_ifs at h with h1 h2 h2
  · simp only [List.singleton_append, List.cons.injEq] at h
    exact ⟨char_eq_of_toNat a b h.1, h.2⟩
  · simp only [List.singleton_append, List.cons_append, List.nil_append, List.cons.injEq] at h
    omega
  · simp only [List.singleton_append, List.cons_append, List.nil_append, List.cons.injEq] at h
    omega
  · simp only [List.cons_append, List.nil_append, List.cons.injEq] at h
    refine ⟨char_eq_of_toNat a b ?_, h.2.2⟩
    omega

theorem utf16_ne_nil (c : Char) : utf16 c ≠ [] := by
  unfold utf16
  split_ifs <;> simp

theorem flatMap_utf16_inj (s t : List Char) (h : s.flatMap utf16 = t.flatMap utf16) : s = t := by
  induction s generalizing t with
  | nil =>
    cases t with
    | nil => rfl
    | cons b bs =>
      simp only [List.flatMap_nil, List.flatMap_cons] at h
      exact absurd (List.append_eq_nil.1 h.symm).1 (utf16_ne_nil b)
  | cons a as ih =>
    cases t with
    | nil =>
      simp only [List.flatMap_nil, List.flatMap_cons] at h
      exact absurd (List.append_eq_nil.1 h).1 (utf16_ne_nil a)
    | cons b bs =>
      simp only [List.flatMap_cons] at h
      obtain ⟨h1, h2⟩ := utf16_append_inj a b _ _ h
      rw [h1, ih bs h2]

theorem codeUnits_inj (x y : String) (h : codeUnits x = codeUnits y) : x = y :=
  String.ext (flatMap_utf16_inj x.data y.data h)

theorem sortLe_antisymm (x y : String) (hxy : sortLe x y) (hyx : sortLe y x) : x = y :=
  codeUnits_inj x y (unitsLe_antisymm _ _ hxy hyx)

theorem sort_sorted (xs : List String) : List.Sorted sortLe (sort xs) := by
  haveI : IsTotal String sortLe := ⟨fun a b => unitsLe_total (codeUnits a) (codeUnits b)⟩
  haveI : IsTrans String sortLe :=
    ⟨fun a b c hab hbc => unitsLe_trans (codeUnits a) (codeUnits b) (codeUnits c) hab hbc⟩
  exact List.sorted_insertionSort sortLe xs

theorem sort_perm (xs : List String) : (sort xs).Perm xs :=
  List.perm_insertionSort sortLe xs

/-! ## Option list -/

/-- C10: the list computed by `populateSpecs` has no repetition, holds exactly the
non-empty specialization values of the dataset, is sorted ascending in the default sort
order (strictly so), and is appended to the dropdown options in that order. -/
theorem populateSpecs_distinct_sorted (page : Page) :
    (populateSpecs page).specializations.Nodup ∧
      (∀ s : String, s ∈ (populateSpecs page).specializations ↔
        (s ≠ "" ∧ ∃ u ∈ page.universities, u.specialization = some s)) ∧
      List.Sorted sortLe (populateSpecs page).specializations ∧
      List.Pairwise (fun a b => sortLe a b ∧ ¬ sortLe b a) (populateSpecs page).specializations ∧
      (populateSpecs page).specOptions =
        page.specOptions ++ (populateSpecs page).specializations := by
  have hspec : (populateSpecs page).specializations = sort (specSet page.universities) := rfl
  have hset : specSet page.universities =
      (page.universities.filterMap specOf).foldl setAdd [] := foldl_specs_eq _ _
  have hnodup : (populateSpecs page).specializations.Nodup := by
    rw [hspec, (sort_perm _).nodup_iff, hset]
    exact foldl_setAdd_nodup _ _ List.nodup_nil
  have hsorted : List.Sorted sortLe (populateSpecs page).specializations := by
    rw [hspec]; exact sort_sorted _
  refine ⟨hnodup, ?_, hsorted, ?_, rfl⟩
  · intro s
    rw [hspec, (sort_perm _).mem_iff, hset, mem_foldl_setAdd, mem_filterMap_specOf]
    simp
  · have hboth := List.Pairwise.and hsorted hnodup
    refine hboth.imp ?_
    rintro a b ⟨hab, hne⟩
    exact ⟨hab, fun hba => hne (sortLe_antisymm a b hab hba)⟩

/-! ## Loading chain -/

theorem updateSummary_fields (list : List University) (page : Page) :
    (updateSummary list page).grid = page.grid ∧
      (updateSummary list page).universities = page.universities := by
  obtain ⟨g, uc, tc, sv, spv, so, l, us, sp⟩ := page
  cases uc <;> cases tc <;> exact ⟨rfl, rfl⟩

theorem render_nil (page : Page) :
    (render [] page).thrown = none ∧
      (render [] page).page.grid = page.grid.map (fun _ => emptyHtml) ∧
      (render [] page).page.universities = page.universities := by
  have hf := updateSummary_fields [] page
  unfold render
  simp only
  split
  · next h => exact ⟨rfl, by rw [← hf.1, h]; rfl, hf.2⟩
  · next g h =>
    rw [if_pos (show ([] : List University).length = 0 from rfl)]
    exact ⟨rfl, by rw [← hf.1, h]; rfl, hf.2⟩

theorem installDataset_nil (page : Page) :
    (installDataset [] page).thrown = none ∧
      (installDataset [] page).page.universities = [] ∧
      (installDataset [] page).page.grid = page.grid.map (fun _ => emptyHtml) := by
  unfold installDataset
  simp only [initEvents, populateSpecs]
  exact ⟨(render_nil _).1, (render_nil _).2.2, (render_nil _).2.1⟩

theorem render_universities (list : List University) (page : Page) :
    (render list page).page.universities = page.universities := by
  have hf := updateSummary_fields list page
  unfold render
  simp only
  split
  · exact hf.2
  · split_ifs
    · exact hf.2
    · split <;> exact hf.2

theorem installDataset_universities (data : List University) (page : Page) :
    (installDataset data page).page.universities = data := by
  unfold installDataset
  simp only [initEvents, populateSpecs]
  rw [render_universities]

theorem loadData_response (embedded : Option (List University)) (status : Nat)
    (parsed : Option JsonRoot) (page : Page) (hEmb : embedded = none ∨ embedded = some []) :
    loadData embedded (FetchResult.response status parsed) page =
      onCatch (onResponse status parsed page) := by
  rcases hEmb with h | h <;> subst h <;> rfl

theorem onCatch_completed (r : Run) (h : r.thrown = none) : onCatch r = r := by
  unfold onCatch
  rw [h]

/-- C2, amended: with no non-empty embedded dataset, a response with a non-success status,
or a body that is not JSON, or the JSON value `null`, makes `loadData` install and render
the demo dataset; a success response whose JSON value is any other non-array value makes it
install and render the empty dataset, the grid showing the empty state. -/
theorem loadData_fallback (embedded : Option (List University)) (page : Page)
    (hEmb : embedded = none ∨ embedded = some []) :
    (∀ (status : Nat) (parsed : Option JsonRoot),
      (¬ (200 ≤ status ∧ status ≤ 299) ∨ parsed = none ∨ parsed = some JsonRoot.null) →
        loadData embedded (FetchResult.response status parsed) page =
            installDataset getDemoData page ∧
          (loadData embedded (FetchResult.response status parsed) page).page.universities =
            getDemoData) ∧
    (∀ (status : Nat) (value : JsonRoot),
      (200 ≤ status ∧ status ≤ 299) → value ≠ JsonRoot.null →
        (∀ records, value ≠ JsonRoot.array records) →
          loadData embedded (FetchResult.response status (some value)) page =
              installDataset [] page ∧
            (loadData embedded (FetchResult.response status (some value)) page).page.universities
              = [] ∧
            (loadData embedded (FetchResult.response status (some value)) page).page.grid =
              page.grid.map (fun _ => emptyHtml)) := by
  constructor
  · intro status parsed h
    have key : loadData embedded (FetchResult.response status parsed) page =
        installDataset getDemoData page := by
      rw [loadData_response embedded status parsed page hEmb]
      unfold onResponse
      rcases h with h | h | h
      · rw [if_pos h]; rfl
      · subst h; split_ifs <;> rfl
      · subst h; split_ifs <;> rfl
    exact ⟨key, by rw [key, installDataset_universities]⟩
  · intro status value hok hnull harr
    have key : loadData embedded (FetchResult.response status (some value)) page =
        installDataset [] page := by
      rw [loadData_response embedded status (some value) page hEmb]
      have hon : onResponse status (some value) page = installDataset [] page := by
        unfold onResponse
        rw [if_neg (not_not.2 hok)]
        cases value with
        | null => exact absurd rfl hnull
        | array records => exact absurd rfl (harr records)
        | boolean b => rfl
        | number n => rfl
        | string s => rfl
        | object => rfl
      rw [hon]
      exact onCatch_completed _ (installDataset_nil page).1
    exact ⟨key, by rw [key]; exact (installDataset_nil page).2.1,
      by rw [key]; exact (installDataset_nil page).2.2⟩

theorem loadData_fallback_witness :
    ((none : Option (List University)) = none ∨ (none : Option (List University)) = some []) ∧
      loadData none (FetchResult.response 404 none) hostPage =
        installDataset getDemoData hostPage ∧
      (loadData none (FetchResult.response 200 (some (JsonRoot.number 5))) hostPage).page.grid =
        hostPage.grid.map (fun _ => emptyHtml) :=
  ⟨Or.inl rfl,
    ((loadData_fallback none hostPage (Or.inl rfl)).1 404 none (Or.inl (by decide))).1,
    ((loadData_fallback none hostPage (Or.inl rfl)).2 200 (JsonRoot.number 5) (by decide)
      (by decide) (fun _ => by simp)).2.2⟩

/-- C2, counterexample: a success response whose body is a JSON object (or the number 5)
leaves the empty list, not the demo dataset, in `universities`, and the grid shows the empty
state. -/
theorem loadData_object_installs_empty :
    (loadData none (FetchResult.response 200 (some JsonRoot.object)) hostPage).page.universities
        = [] ∧
      (loadData none (FetchResult.response 200 (some JsonRoot.object)) hostPage).page.universities
        ≠ getDemoData ∧
      (loadData none (FetchResult.response 200 (some (JsonRoot.number 5))) hostPage).page.universities
        ≠ getDemoData ∧
      (loadData none (FetchResult.response 200 (some JsonRoot.object)) hostPage).page.grid =
        some emptyHtml := by
  decide

/-! ## Renderer: evaluation at particular lists -/

set_option maxRecDepth 100000 in
/-- C3: for a record whose url closes the `href` attribute and opens a `script` element,
the markup `render` writes to the grid contains that url verbatim, with its `<`, `>` and
double quote unescaped. -/
theorem render_url_inserted_raw :
    ∃ markup : String,
      (render [markupUrlRecord] hostPage).page.grid = some markup ∧
        "\"><script>alert(1)</script>".data <:+: markup.data ∧
        '<' ∈ (markupUrlRecord.url.getD "").data := by
  refine ⟨_, rfl, ?_, ?_⟩
  · decide
  · decide

/-- C4: for the one-record list whose name is `constructor` (one distinct name), `render`
throws a `TypeError` while grouping, no card is produced and the grid is left as it was; the
same happens for the name `toString`. -/
theorem render_constructor_throws :
    distinctNames [constructorRecord] = 1 ∧
      cards [constructorRecord] = Except.error JsError.typeError ∧
      (render [constructorRecord] hostPage).thrown = some JsError.typeError ∧
      (render [constructorRecord] hostPage).page.grid = hostPage.grid ∧
      (render [{ name := "toString" }] hostPage).thrown = some JsError.typeError := by
  refine ⟨by decide, rfl, by decide, by decide, by decide⟩

/-- C6: with the three demo records loaded and the query `москв`, the filter keeps no
record and the grid shows the empty state: the demo records carry their town under
`location`, and their `city`, the field the filter reads, is absent. -/
theorem demo_query_finds_nothing :
    demoQueryPage.universities = getDemoData ∧
      filtered demoQueryPage = [] ∧
      (applyFilters demoQueryPage).page.grid = some emptyHtml ∧
      getDemoData.map University.city = [none, none, none] ∧
      getDemoData.map University.location = [some "Белгород", some "Воронеж", some "Москва"] := by
  decide

/-! ## Renderer: grouping -/

theorem specEntry_eq_entryOf (u : University) : specEntry u = entryOf u := by
  unfold specEntry entryOf
  cases hs : u.specialization with
  | none => simp [truthyField]
  | some s =>
    by_cases h : s = ""
    · simp [truthyField, truthy, h]
    · simp [truthyField, truthy, h]

theorem lookup_setProperty_self (obj : GroupedUnis) (k : String) (g : Group) :
    (setProperty obj k g).lookup k = some g := by
  induction obj with
  | nil => simp [setProperty, List.lookup]
  | cons kv rest ih =>
    obtain ⟨k1, v1⟩ := kv
    unfold setProperty
    split_ifs with h
    · subst h; simp [List.lookup]
    · have : (k == k1) = false := by simpa using fun e => h e.symm
      simp [List.lookup, this, ih]

theorem lookup_setProperty_ne (obj : GroupedUnis) (k k2 : String) (g : Group) (hne : k2 ≠ k) :
    (setProperty obj k g).lookup k2 = obj.lookup k2 := by
  induction obj with
  | nil =>
    have : (k2 == k) = false := by simpa using hne
    simp [setProperty, List.lookup, this]
  | cons kv rest ih =>
    obtain ⟨k1, v1⟩ := kv
    unfold setProperty
    split_ifs with h
    · subst h
      have : (k2 == k1) = false := by simpa using hne
      simp [List.lookup, this]
    · by_cases h2 : k2 = k1
      · subst h2; simp [List.lookup]
      · have : (k2 == k1) = false := by simpa using h2
        simp [List.lookup, this, ih]

theorem keys_setProperty (obj : GroupedUnis) (k : String) (g : Group) :
    (setProperty obj k g).map Prod.fst =
      if k ∈ obj.map Prod.fst then obj.map Prod.fst else obj.map Prod.fst ++ [k] := by
  induction obj with
  | nil => simp [setProperty]
  | cons kv rest ih =>
    obtain ⟨k1, v1⟩ := kv
    unfold setProperty
    by_cases h : k1 = k
    · subst h; simp
    · have hne : ¬ k = k1 := fun e => h e.symm
      simp only [h, if_false, List.map_cons, ih, List.mem_cons, hne, false_or]
      split_ifs <;> simp

theorem keys_setProperty_nodup (obj : GroupedUnis) (k : String) (g : Group)
    (h : (obj.map Prod.fst).Nodup) : ((setProperty obj k g).map Prod.fst).Nodup := by
  rw [keys_setProperty]
  split_ifs with hk
  · exact h
  · exact List.Nodup.append h (List.nodup_singleton k) (by simpa using hk)

theorem lookup_eq_none_iff (obj : GroupedUnis) (k : String) :
    obj.lookup k = none ↔ k ∉ obj.map Prod.fst := by
  induction obj with
  | nil => simp [List.lookup]
  | cons kv rest ih =>
    obtain ⟨k1, v1⟩ := kv
    by_cases h : k = k1
    · subst h; simp [List.lookup]
    · have : (k == k1) = false := by simpa using h
      simp [List.lookup, this, ih, h]

theorem lookup_of_mem (obj : GroupedUnis) (k : String) (g : Group)
    (hnodup : (obj.map Prod.fst).Nodup) (hmem : (k, g) ∈ obj) : obj.lookup k = some g := by
  induction obj with
  | nil => simp at hmem
  | cons kv rest ih =>
    obtain ⟨k1, v1⟩ := kv
    rw [List.map_cons, List.nodup_cons] at hnodup
    rcases List.mem_cons.1 hmem with h | h
    · cases h; simp [List.lookup]
    · have hk : k ∈ rest.map Prod.fst := List.mem_map.2 ⟨(k, g), h, rfl⟩
      have hne : k ≠ k1 := fun e => hnodup.1 (e ▸ hk)
      have : (k == k1) = false := by simpa using hne
      simp [List.lookup, this, ih hnodup.2 h]

theorem groupOf_append_ne (done : List University) (u : University) (k : String)
    (hne : k ≠ u.name) : groupOf (done ++ [u]) k = groupOf done k := by
  have hu : decide (u.name = k) = false := by simpa using fun e => hne e.symm
  unfold groupOf
  rw [List.find?_append, List.filter_append]
  simp [List.find?, List.filter, hu]

theorem groupOf_append_some (done : List University) (u : University) (g : Group)
    (h : groupOf done u.name = some g) :
    groupOf (done ++ [u]) u.name =
      some { g with specializations := g.specializations ++ [entryOf u] } := by
  unfold groupOf at h ⊢
  rw [List.find?_append, List.filter_append]
  cases hf : done.find? (fun v => decide (v.name = u.name)) with
  | none => rw [hf] at h; simp at h
  | some first =>
    rw [hf] at h
    simp only [Option.map_some', Option.some.injEq] at h
    subst h
    simp [List.filter]

theorem groupOf_append_none (done : List University) (u : University)
    (h : groupOf done u.name = none) :
    groupOf (done ++ [u]) u.name =
      some { name := u.name, city := u.city, url := u.url, specializations := [entryOf u] } := by
  unfold groupOf at h ⊢
  rw [List.find?_append, List.filter_append]
  cases hf : done.find? (fun v => decide (v.name = u.name)) with
  | some first => rw [hf] at h; simp at h
  | none =>
    have hnil : done.filter (fun v => decide (v.name = u.name)) = [] := by
      rw [List.filter_eq_nil_iff]
      intro v hv
      exact List.find?_eq_none.1 hf v hv
    simp [List.filter, List.find?, hnil]

theorem groupStep_grouped (done : List University) (obj : GroupedUnis) (u : University)
    (hinv : Grouped done obj) (hname : u.name ∉ objectPrototypeKeys) :
    ∃ next, groupStep obj u = Except.ok next ∧ Grouped (done ++ [u]) next := by
  obtain ⟨hnodup, hlook⟩ := hinv
  cases hl : obj.lookup u.name with
  | some g =>
    have hget : getProperty obj u.name = PropertyValue.own g := by
      simp [getProperty, hl]
    refine ⟨setProperty obj u.name
      { g with specializations := g.specializations ++ [specEntry u] }, ?_, ?_, ?_⟩
    · simp [groupStep, hget]
    · exact keys_setProperty_nodup _ _ _ hnodup
    · intro k
      by_cases hk : k = u.name
      · subst hk
        rw [lookup_setProperty_self, groupOf_append_some done u g (by rw [← hlook, hl]),
          specEntry_eq_entryOf]
      · rw [lookup_setProperty_ne _ _ _ _ hk, groupOf_append_ne done u k hk, hlook]
  | none =>
    have hget : getProperty obj u.name = PropertyValue.undefined := by
      simp [getProperty, hl, hname]
    have hget2 : getProperty (setProperty obj u.name
        { name := u.name, city := u.city, url := u.url, specializations := [] }) u.name =
        PropertyValue.own
          { name := u.name, city := u.city, url := u.url, specializations := [] } := by
      simp [getProperty, lookup_setProperty_self]
    refine ⟨setProperty (setProperty obj u.name
        { name := u.name, city := u.city, url := u.url, specializations := [] }) u.name
      { name := u.name, city := u.city, url := u.url, specializations := [specEntry u] },
      ?_, ?_, ?_⟩
    · simp [groupStep, hget, hget2]
    · exact keys_setProperty_nodup _ _ _ (keys_setProperty_nodup _ _ _ hnodup)
    · intro k
      by_cases hk : k = u.name
      · subst hk
        rw [lookup_setProperty_self, groupOf_append_none done u (by rw [← hlook, hl]),
          specEntry_eq_entryOf]
      · rw [lookup_setProperty_ne _ _ _ _ hk, lookup_setProperty_ne _ _ _ _ hk,
          groupOf_append_ne done u k hk, hlook]

theorem groupUnis_grouped (rest done : List University) (obj : GroupedUnis)
    (hinv : Grouped done obj) (hnames : ∀ u ∈ rest, u.name ∉ objectPrototypeKeys) :
    ∃ final, groupUnis obj rest = Except.ok final ∧ Grouped (done ++ rest) final := by
  induction rest generalizing done obj with
  | nil => exact ⟨obj, rfl, by simpa using hinv⟩
  | cons u us ih =>
    obtain ⟨next, hstep, hnext⟩ :=
      groupStep_grouped done obj u hinv (hnames u (List.mem_cons_self u us))
    obtain ⟨final, hfinal, hgrouped⟩ :=
      ih (done ++ [u]) next hnext (fun v hv => hnames v (List.mem_cons_of_mem u hv))
    refine ⟨final, ?_, ?_⟩
    · simp only [groupUnis, hstep]
      exact hfinal
    · simpa using hgrouped

theorem grouped_nil : Grouped [] [] :=
  ⟨List.nodup_nil, fun _ => rfl⟩

theorem objectValues_perm (obj : GroupedUnis) : (objectValues obj).Perm (obj.map Prod.snd) := by
  unfold objectValues
  rw [← List.map_append]
  apply List.Perm.map
  refine List.Perm.trans (List.Perm.append_right _ (List.perm_insertionSort _ _)) ?_
  exact List.filter_append_perm _ obj

theorem groupOf_some (list : List University) (k : String) (g : Group)
    (h : groupOf list k = some g) :
    g.name = k ∧
      (∃ first, list.find? (fun u => u.name = k) = some first ∧ g.city = first.city ∧
        g.url = first.url) ∧
      g.specializations = (list.filter (fun u => u.name = k)).map entryOf := by
  unfold groupOf at h
  cases hf : list.find? (fun u => decide (u.name = k)) with
  | none => rw [hf] at h; simp at h
  | some first =>
    rw [hf] at h
    simp only [Option.map_some', Option.some.injEq] at h
    subst h
    exact ⟨rfl, ⟨first, rfl, rfl, rfl⟩, rfl⟩

theorem groupOf_isSome_iff (list : List University) (k : String) :
    k ∈ list.map University.name ↔ groupOf list k ≠ none := by
  unfold groupOf
  rw [Ne, Option.map_eq_none', List.find?_eq_none]
  simp only [decide_eq_true_eq, not_forall, not_not, List.mem_map]
  constructor
  · rintro ⟨u, hu, rfl⟩
    exact ⟨u, hu, rfl⟩
  · rintro ⟨u, hu, h⟩
    exact ⟨u, hu, h⟩

theorem grouped_names (done : List University) (obj : GroupedUnis) (hinv : Grouped done obj) :
    obj.map (fun kv => kv.2.name) = obj.map Prod.fst := by
  apply List.map_congr_left
  rintro ⟨k, g⟩ hmem
  have hl := lookup_of_mem obj k g hinv.1 hmem
  rw [hinv.2 k] at hl
  exact (groupOf_some done k g hl).1

/-- C7, amended: for every list none of whose names is a property name inherited from
`Object.prototype`, grouping completes, and the grouped view has exactly one group per
distinct name, each with the city and url of the first record of that name and with one
entry per record of that name, in list order, carrying that record's scores and its
specialization, or the placeholder when the specialization is absent or empty. -/
theorem render_grouped_view (list : List University)
    (hNames : ∀ u ∈ list, u.name ∉ objectPrototypeKeys) :
    ∃ groupedUnis : GroupedUnis,
      groupUnis [] list = Except.ok groupedUnis ∧
        ((objectValues groupedUnis).map Group.name).Nodup ∧
        (∀ name : String,
          name ∈ (objectValues groupedUnis).map Group.name ↔ name ∈ list.map University.name) ∧
        (∀ group ∈ objectValues groupedUnis,
          (∃ first, list.find? (fun u => u.name = group.name) = some first ∧
            group.city = first.city ∧ group.url = first.url) ∧
          group.specializations =
            (list.filter (fun u => u.name = group.name)).map entryOf) := by
  obtain ⟨final, hrun, hinv⟩ := groupUnis_grouped list [] [] grouped_nil hNames
  rw [List.nil_append] at hinv
  have hperm : ((objectValues final).map Group.name).Perm (final.map Prod.fst) := by
    have := (objectValues_perm final).map Group.name
    rw [List.map_map] at this
    rw [← grouped_names list final hinv]
    exact this
  refine ⟨final, hrun, hperm.nodup_iff.2 hinv.1, ?_, ?_⟩
  · intro name
    rw [hperm.mem_iff, groupOf_isSome_iff, ← hinv.2 name, Ne, lookup_eq_none_iff, not_not]
  · intro group hgroup
    have hmem : group ∈ final.map Prod.snd := (objectValues_perm final).mem_iff.1 hgroup
    obtain ⟨⟨k, g⟩, hkg, hsnd⟩ := List.mem_map.1 hmem
    simp only at hsnd
    subst hsnd
    have hl := lookup_of_mem final k g hinv.1 hkg
    rw [hinv.2 k] at hl
    obtain ⟨hname, hfirst, hspecs⟩ := groupOf_some list k g hl
    rw [hname]
    exact ⟨hfirst, hspecs⟩

theorem render_grouped_view_witness :
    (∀ u ∈ scenarioD, u.name ∉ objectPrototypeKeys) ∧
      ∃ groupedUnis : GroupedUnis,
        groupUnis [] scenarioD = Except.ok groupedUnis ∧
          ((objectValues groupedUnis).map Group.name).Nodup ∧
          (∀ name : String,
            name ∈ (objectValues groupedUnis).map Group.name ↔
              name ∈ scenarioD.map University.name) ∧
          (∀ group ∈ objectValues groupedUnis,
            (∃ first, scenarioD.find? (fun u => u.name = group.name) = some first ∧
              group.city = first.city ∧ group.url = first.url) ∧
            group.specializations =
              (scenarioD.filter (fun u => u.name = group.name)).map entryOf) :=
  ⟨by decide, render_grouped_view scenarioD (by decide)⟩

/-- C7, counterexample: a record whose specialization is present and empty gets the
placeholder as entry name, not its specialization; and for a record named `constructor` no
grouped view is built at all. -/
theorem grouping_empty_specialization_placeholder :
    emptySpecRecord.specialization = some "" ∧
      groupUnis [] [emptySpecRecord] =
        Except.ok
          [("X", { name := "X", city := none, url := none,
                   specializations :=
                     [{ name := "Без специализации", score_min := none, score_max := none }] })] ∧
      groupUnis [] [constructorRecord] = Except.error JsError.typeError :=
  ⟨rfl, rfl, rfl⟩

/-- Scenario D: two records named `X` with different specializations give one group that
lists both entries, with the city of the first record. -/
theorem scenarioD_one_group :
    (groupUnis [] scenarioD).toOption.map objectValues =
      some [{ name := "X", city := some "A", url := none,
              specializations :=
                [{ name := "S1", score_min := some 1, score_max := some 2 },
                 { name := "S2", score_min := none, score_max := none }] }] := by
  decide

/-- Card count on lists without inherited names: one card per distinct name. -/
theorem cards_count (list : List University)
    (hNames : ∀ u ∈ list, u.name ∉ objectPrototypeKeys) :
    ∃ cs : List String, cards list = Except.ok cs ∧ cs.length = distinctNames list := by
  obtain ⟨final, hrun, hinv⟩ := groupUnis_grouped list [] [] grouped_nil hNames
  rw [List.nil_append] at hinv
  refine ⟨(objectValues final).map cardHtml, by simp [cards, hrun], ?_⟩
  rw [List.length_map, (objectValues_perm final).length_eq, List.length_map,
    ← List.length_map final Prod.fst, ← List.toFinset_card_of_nodup hinv.1, distinctNames]
  congr 1
  ext k
  rw [List.mem_toFinset, List.mem_toFinset, groupOf_isSome_iff, ← hinv.2 k, Ne,
    lookup_eq_none_iff, not_not]

/-- Scenario B on demo records that carry their town under `city`: only the last record is
kept. -/
theorem demo_query_with_city_field :
    (filtered { demoQueryPage with
        universities := getDemoData.map (fun u => { u with city := u.location }) }).map
      University.name = ["МГУ"] := by
  decide

end Universities
